import Mathlib

/-!
Shallow embedding of `src/fetch_buyback.py` (S&P 500 buyback tracker).

Numeric provider values are modelled as `Int`; a raw table cell is
`Option Int`, where `none` stands for a null or NaN cell (the code
treats both the same way: `val is not None and str(val) != 'nan'`).
Python dicts are modelled as association lists with overwrite-on-insert.
-/

namespace Buyback

/-- Python dict lookup `d[k]` / `k in d` (keys are unique in a dict, so
taking the first matching pair is faithful). -/
def alistLookup {α : Type} (d : List (String × α)) (k : String) : Option α :=
  (d.find? (fun p => p.1 = k)).map (fun p => p.2)

/-- Python dict assignment `d[k] = v`: overwrite if present, append otherwise. -/
def alistSet {α : Type} (d : List (String × α)) (k : String) (v : α) :
    List (String × α) :=
  if d.any (fun p => p.1 = k) then
    d.map (fun p => if p.1 = k then (k, v) else p)
  else
    d ++ [(k, v)]

/-- Digit-string accumulator underlying `parseInt`. -/
def digitsToNat (acc : Nat) : List Char → Option Nat
  | [] => some acc
  | c :: rest =>
    if c.isDigit then digitsToNat (acc * 10 + (c.toNat - 48)) rest else none

/-- Python `int(s)` for decimal strings, as an `Option` (Python raises on a
non-numeric string; the embedding returns `none` there). -/
def parseInt (s : String) : Option Int :=
  match s.data with
  | [] => none
  | '-' :: rest =>
    if rest.isEmpty then none else (digitsToNat 0 rest).map (fun n => -(n : Int))
  | l => (digitsToNat 0 l).map (fun n => (n : Int))

/-- `f"{n:02d}"` for the month values the code produces (1..12). -/
def fmt2 (n : Int) : String :=
  if n < 10 then "0" ++ toString n else toString n

/-- The body of the offset loop in `find_nearby` (lines 78-82 of the source):
given parsed year `y` and month `m` of the target key and an offset,
computes the candidate key with Python's floor-division/mod month rollover. -/
def offsetKey (y m o : Int) : String :=
  let nm := m + o
  let ny := y + Int.fdiv (nm - 1) 12
  let nm2 := Int.fmod (nm - 1) 12 + 1
  toString ny ++ "-" ++ fmt2 nm2

/-- The `for offset in [1, -1, 2, -2, 3, -3]` loop of `find_nearby`:
return the value at the first candidate key present in the dict, else 0. -/
def probeOffsets (d : List (String × Int)) (y m : Int) : List Int → Int
  | [] => 0
  | o :: rest =>
    match alistLookup d (offsetKey y m o) with
    | some v => v
    | none => probeOffsets d y m rest

/-- `find_nearby(data_dict, date_key)` (source lines 73-85): exact match,
else probe month offsets `+1,-1,+2,-2,+3,-3`, else 0.  The source parses
`int(date_key[:4])` and `int(date_key[5:7])`; parse failure is modelled
by defaulting to 0 (the theorems only use well-formed keys). -/
def find_nearby (d : List (String × Int)) (date_key : String) : Int :=
  match alistLookup d date_key with
  | some v => v
  | none =>
    let y := (parseInt (date_key.take 4)).getD 0
    let m := (parseInt ((date_key.drop 5).take 2)).getD 0
    probeOffsets d y m [1, -1, 2, -2, 3, -3]

/-- Spec-side: first value present in the dict along an explicit candidate
list, 0 if none of the candidates is present. -/
def firstHit (d : List (String × Int)) : List String → Int
  | [] => 0
  | k :: rest =>
    match alistLookup d k with
    | some v => v
    | none => firstHit d rest

theorem probeOffsets_eq_firstHit (d : List (String × Int)) (y m : Int)
    (os : List Int) :
    probeOffsets d y m os = firstHit d (os.map (offsetKey y m)) := by
  induction os with
  | nil => rfl
  | cons o rest ih =>
    simp only [probeOffsets, firstHit, List.map]
    cases alistLookup d (offsetKey y m o) with
    | some v => rfl
    | none => exact ih

/-- A column label of a quarterly statement table: a calendar date
(pandas timestamp) with year, month, day. -/
structure DateCol where
  y : Int
  m : Int
  d : Int
deriving DecidableEq, Repr

/-- `col.strftime("%Y-%m")`. -/
def qKeyOf (c : DateCol) : String := toString c.y ++ "-" ++ fmt2 c.m

/-- `col.strftime("%Y-%m-%d")`. -/
def dateStrOf (c : DateCol) : String := qKeyOf c ++ "-" ++ fmt2 c.d

/-- A pandas statement DataFrame: row labels (the statement line items)
crossed with date columns.  A cell is `Option Int`: `none` models a null or
NaN cell, which the code skips. -/
structure FinTable where
  cols : List DateCol
  rows : List (String × List (Option Int))
deriving DecidableEq, Repr

/-- `key in t.index`. -/
def hasRow (t : FinTable) (k : String) : Bool :=
  t.rows.any (fun r => r.1 = k)

/-- `t.loc[key, col]` at column position `j`, with `none` for an absent key,
a missing cell, or a null/NaN cell. -/
def cellVal (t : FinTable) (k : String) (j : Nat) : Option Int :=
  match t.rows.find? (fun r => r.1 = k) with
  | some r => (r.2.get? j).getD none
  | none => none

/-- `t.empty` (a DataFrame is empty when either axis has length 0). -/
def FinTable.isEmpty (t : FinTable) : Bool :=
  t.cols.isEmpty || t.rows.isEmpty

/-- The candidate-field loop for buyback and free-cash-flow amounts
(source lines 96-103 and 118-124): first candidate key whose cell is
present, non-null and non-NaN wins; 0 when none does. -/
def resolveField (t : FinTable) (j : Nat) : List String → Int
  | [] => 0
  | k :: rest =>
    if hasRow t k then
      match cellVal t k j with
      | some v => v
      | none => resolveField t j rest
    else resolveField t j rest

/-- The average-shares candidate loop (source lines 108-113): like
`resolveField` but the value must additionally be strictly positive. -/
def resolveSharesAvg (t : FinTable) (j : Nat) : List String → Int
  | [] => 0
  | k :: rest =>
    if hasRow t k then
      match cellVal t k j with
      | some v => if 0 < v then v else resolveSharesAvg t j rest
      | none => resolveSharesAvg t j rest
    else resolveSharesAvg t j rest

def buybackKeys : List String :=
  ["Repurchase Of Capital Stock", "Common Stock Repurchased",
   "RepurchaseOfCapitalStock"]

def avgSharesKeys : List String :=
  ["Diluted Average Shares", "Basic Average Shares"]

def fcfKeys : List String := ["Free Cash Flow", "FreeCashFlow"]

def bsSharesKeys : List String :=
  ["Ordinary Shares Number", "Share Issued",
   "Common Stock Shares Outstanding", "OrdinarySharesNumber"]

/-- The canonical per-quarter record (source lines 129-138). -/
structure Quarter where
  date : String
  period : String
  year : String
  buyback_amount : Int
  shares_outstanding : Int
  shares_diluted : Int
  free_cash_flow : Int
  price : Int
deriving DecidableEq, Repr

/-- The body of the per-column loop of `fetch_buyback_data`
(source lines 88-138), for the column at position `j`. -/
def mkQuarter (cf : FinTable) (shares_data prices : List (String × Int))
    (current_shares : Int) (j : Nat) (col : DateCol) : Quarter :=
  let date_str := dateStrOf col
  let q_key := date_str.take 7
  let q_num := Int.fdiv (col.m - 1) 3 + 1
  let buyback := resolveField cf j buybackKeys
  let shares0 := find_nearby shares_data q_key
  let shares1 := if shares0 = 0 then resolveSharesAvg cf j avgSharesKeys else shares0
  let shares := if shares1 = 0 then current_shares else shares1
  let fcf := resolveField cf j fcfKeys
  let price := find_nearby prices q_key
  { date := date_str
    period := "Q" ++ toString q_num
    year := toString col.y
    buyback_amount := buyback
    shares_outstanding := shares
    shares_diluted := shares
    free_cash_flow := fcf
    price := price }

/-- `for col in cf.columns: ... quarters.append(...)`. -/
def buildQuarters (cf : FinTable) (shares_data prices : List (String × Int))
    (current_shares : Int) : List Quarter :=
  cf.cols.enum.map (fun p => mkQuarter cf shares_data prices current_shares p.1 p.2)

/-- The inner candidate loop of the balance-sheet shares extraction
(source lines 53-59): first present, non-null, non-NaN, strictly positive
value for the column at position `j`, if any. -/
def buildSharesRow (bs : FinTable) (j : Nat) : List String → Option Int
  | [] => none
  | k :: rest =>
    if hasRow bs k then
      match cellVal bs k j with
      | some v => if 0 < v then some v else buildSharesRow bs j rest
      | none => buildSharesRow bs j rest
    else buildSharesRow bs j rest

/-- `shares_data` built from the quarterly balance sheet (source lines 47-59). -/
def buildSharesData (bs : FinTable) : List (String × Int) :=
  bs.cols.enum.foldl (fun acc p =>
    match buildSharesRow bs p.1 bsSharesKeys with
    | some v => alistSet acc (qKeyOf p.2) v
    | none => acc) []

/-- `prices` built from 5y monthly history (source lines 64-71); each entry
is a month column with its closing price. -/
def buildPrices (hist : List (DateCol × Int)) : List (String × Int) :=
  hist.foldl (fun acc p => alistSet acc (qKeyOf p.1) p.2) []

/-- Outcome of one provider call: a value, or a raised exception. -/
inductive PCall (α : Type) where
  | ok : α → PCall α
  | err : String → PCall α
deriving DecidableEq, Repr

/-- The upstream provider (yfinance) for one symbol: each call either
returns data (possibly `none`, e.g. `cf is None`) or raises. -/
structure FastInfo where
  market_cap : Option Int
  last_price : Option Int
  shares : Option Int
deriving DecidableEq, Repr

structure Provider where
  cashflow : PCall (Option FinTable)
  fastInfo : PCall FastInfo
  balance_sheet : PCall (Option FinTable)
  history : PCall (Option (List (DateCol × Int)))
deriving DecidableEq, Repr

structure FetchResult where
  quarters : List Quarter
  market_cap : Int
  current_price : Int
deriving DecidableEq, Repr

/-- `fetch_buyback_data(symbol)` (source lines 30-144): the whole body is
wrapped in `try/except` returning `None`, so a raising provider call yields
`none`; the balance-sheet and history sub-queries have their own
`try/except: pass`, so their failures only leave the corresponding dict
empty. -/
def fetch_buyback_data (p : Provider) : Option FetchResult :=
  match p.cashflow with
  | .err _ => none
  | .ok none => none
  | .ok (some cf) =>
    if cf.isEmpty then none
    else
      match p.fastInfo with
      | .err _ => none
      | .ok fi =>
        let market_cap := fi.market_cap.getD 0
        let current_price := fi.last_price.getD 0
        let current_shares := fi.shares.getD 0
        let shares_data :=
          match p.balance_sheet with
          | .err _ => []
          | .ok none => []
          | .ok (some bs) => if bs.isEmpty then [] else buildSharesData bs
        let prices :=
          match p.history with
          | .err _ => []
          | .ok none => []
          | .ok (some h) => if h.isEmpty then [] else buildPrices h
        some { quarters := buildQuarters cf shares_data prices current_shares
               market_cap := market_cap
               current_price := current_price }

theorem cellVal_eq_none_of_not_hasRow (t : FinTable) (k : String) (j : Nat)
    (h : hasRow t k = false) : cellVal t k j = none := by
  unfold hasRow at h
  unfold cellVal
  rw [List.find?_eq_none.2]
  intro r hr
  simpa using List.any_eq_false.1 h r hr

theorem resolveField_eq_filterMap (t : FinTable) (j : Nat) (ks : List String) :
    resolveField t j ks = (ks.filterMap (fun k => cellVal t k j)).headD 0 := by
  induction ks with
  | nil => rfl
  | cons k rest ih =>
    simp only [resolveField, List.filterMap_cons]
    by_cases hk : hasRow t k
    · simp only [hk, if_true]
      cases hv : cellVal t k j with
      | some v => simp
      | none => simpa using ih
    · simp only [eq_false_of_ne_true hk, if_false,
        cellVal_eq_none_of_not_hasRow t k j (eq_false_of_ne_true hk)]
      simpa using ih

theorem resolveSharesAvg_eq_filterMap (t : FinTable) (j : Nat)
    (ks : List String) :
    resolveSharesAvg t j ks
      = (ks.filterMap (fun k =>
          (cellVal t k j).bind (fun v => if 0 < v then some v else none))).headD 0 := by
  induction ks with
  | nil => rfl
  | cons k rest ih =>
    simp only [resolveSharesAvg, List.filterMap_cons]
    by_cases hk : hasRow t k
    · simp only [hk, if_true]
      cases hv : cellVal t k j with
      | some v =>
        by_cases hp : 0 < v
        · simp [hp]
        · simp only [hp, if_false, Option.some_bind]
          simpa [hp] using ih
      | none => simpa using ih
    · simp only [eq_false_of_ne_true hk, if_false,
        cellVal_eq_none_of_not_hasRow t k j (eq_false_of_ne_true hk)]
      simpa using ih

theorem mkQuarter_diluted_eq_outstanding (cf : FinTable)
    (sd pr : List (String × Int)) (cs : Int) (j : Nat) (col : DateCol) :
    (mkQuarter cf sd pr cs j col).shares_diluted
      = (mkQuarter cf sd pr cs j col).shares_outstanding := rfl

theorem fetch_quarters_eq (p : Provider) (r : FetchResult)
    (h : fetch_buyback_data p = some r) :
    ∃ cf sd pr cs, r.quarters = buildQuarters cf sd pr cs := by
  unfold fetch_buyback_data at h
  cases hc : p.cashflow with
  | err e => rw [hc] at h; simp at h
  | ok o =>
    rw [hc] at h
    cases o with
    | none => simp at h
    | some cf =>
      dsimp only at h
      by_cases he : cf.isEmpty
      · rw [he] at h; simp at h
      · simp only [he, if_false] at h
        cases hf : p.fastInfo with
        | err e => rw [hf] at h; simp at h
        | ok fi =>
          rw [hf] at h
          dsimp only at h
          injection h with h2
          exact ⟨cf, _, _, _, by rw [← h2]⟩

/-- `sum(abs(min(q["buyback_amount"], 0)) for q in result["quarters"])`
(source line 209). -/
def buybackTotal (qs : List Quarter) : Int :=
  (qs.map (fun q => |min q.buyback_amount 0|)).sum

/-- `any(q["buyback_amount"] < 0 for q in v.get("quarters", []))`
(source lines 233-234). -/
def hasBuybackActivity (qs : List Quarter) : Bool :=
  qs.any (fun q => q.buyback_amount < 0)

/-- Entry of the symbol-universe file: `{symbol, name, sector}`, where the
latter two keys may be absent (`info.get("name", symbol)` /
`info.get("sector", "Unknown")`). -/
structure SymInfo where
  symbol : String
  name : Option String
  sector : Option String
deriving DecidableEq, Repr

/-- The per-symbol record stored in `db["data"]` (source lines 200-208). -/
structure SymbolRecord where
  name : String
  sector : String
  subSector : String
  quarters : List Quarter
  market_cap : Int
  current_price : Int
  last_fetched : String
deriving DecidableEq, Repr

/-- The persisted collection state (source lines 151-159). -/
structure DB where
  last_updated : String
  batch_index : Nat
  total_batches : Nat
  sp500_list : List SymInfo
  data : List (String × SymbolRecord)
  collection_started : String
  full_cycles_completed : Nat
deriving DecidableEq, Repr

/-- `load_data()` default when no state file exists. -/
def initialDB : DB := ⟨"", 0, 0, [], [], "", 0⟩

def BATCH_SIZE : Nat := 50

/-- The record stored for one successfully fetched symbol
(source lines 199-208); `info_lookup` is modelled by `find?` over the
universe list. -/
def mkRecord (sp : List SymInfo) (sym : String) (r : FetchResult)
    (now : String) : SymbolRecord :=
  let info := sp.find? (fun i => i.symbol = sym)
  { name := (info.bind (fun i => i.name)).getD sym
    sector := (info.bind (fun i => i.sector)).getD "Unknown"
    subSector := ""
    quarters := r.quarters
    market_cap := r.market_cap
    current_price := r.current_price
    last_fetched := now }

/-- One iteration of the per-symbol loop (source lines 194-216): the state
is `(db, success_count, fail_count)`. -/
def processSymbol (fetch : String → Option FetchResult) (now : String)
    (sp : List SymInfo) (st : DB × Nat × Nat) (sym : String) :
    DB × Nat × Nat :=
  match fetch sym with
  | some r =>
    if r.quarters.isEmpty then (st.1, st.2.1, st.2.2 + 1)
    else
      ({ st.1 with data := alistSet st.1.data sym (mkRecord sp sym r now) },
        st.2.1 + 1, st.2.2)
  | none => (st.1, st.2.1, st.2.2 + 1)

/-- The whole per-symbol loop over the selected batch. -/
def processBatch (fetch : String → Option FetchResult) (now : String)
    (sp : List SymInfo) : DB × Nat × Nat → List String → DB × Nat × Nat
  | st, [] => st
  | st, sym :: rest =>
    processBatch fetch now sp (processSymbol fetch now sp st sym) rest

/-- The batch slice `symbols[start:end]` with `start = bi * BATCH_SIZE` and
`end = min(start + BATCH_SIZE, len(symbols))` (source lines 183-185). -/
def batchSlice (symbols : List String) (bi : Nat) : List String :=
  let start := bi * BATCH_SIZE
  let stop := min (start + BATCH_SIZE) symbols.length
  (symbols.take stop).drop start

/-- Observable outcome of one `main()` invocation: `exitCode = some c`
models `sys.exit(c)`, `written` the state file contents written by
`save_data` (`none` when nothing is written), `fetched` the symbols the run
attempted to fetch. -/
structure RunOutcome where
  exitCode : Option Nat
  written : Option DB
  fetched : List String
  succ : Nat
  fail : Nat
deriving DecidableEq, Repr

/-- `main()` (source lines 169-243), with the universe file contents as an
input (`none` models a missing file, which `load_sp500_list` reports as
`None`). -/
def mainModel (fetch : String → Option FetchResult) (now : String)
    (sp500 : Option (List SymInfo)) (db0 : DB) : RunOutcome :=
  match sp500 with
  | none => ⟨some 1, none, [], 0, 0⟩
  | some sp =>
    if sp.isEmpty then ⟨some 1, none, [], 0, 0⟩
    else
      let db := { db0 with sp500_list := sp }
      let symbols := sp.map (fun s => s.symbol)
      let total_batches := (symbols.length + BATCH_SIZE - 1) / BATCH_SIZE
      let batch_index := db.batch_index % total_batches
      let batch_symbols := batchSlice symbols batch_index
      let st := processBatch fetch now sp (db, 0, 0) batch_symbols
      let db1 := { st.1 with
        last_updated := now
        batch_index := (batch_index + 1) % total_batches
        total_batches := total_batches }
      let db2 := if db1.collection_started = "" then
          { db1 with collection_started := now } else db1
      let db3 := if batch_index + 1 = total_batches then
          { db2 with full_cycles_completed := db2.full_cycles_completed + 1 }
        else db2
      ⟨none, some db3, batch_symbols, st.2.1, st.2.2⟩

theorem alistLookup_cons {α : Type} (q : String × α) (t : List (String × α))
    (k : String) :
    alistLookup (q :: t) k = if q.1 = k then some q.2 else alistLookup t k := by
  unfold alistLookup
  rw [List.find?_cons]
  by_cases hq : q.1 = k <;> simp [hq]

theorem find?_map_replace_self {α : Type} (d : List (String × α))
    (k : String) (v : α) (h : d.any (fun p => p.1 = k) = true) :
    alistLookup (d.map (fun p => if p.1 = k then (k, v) else p)) k = some v := by
  induction d with
  | nil => simp at h
  | cons p rest ih =>
    rw [List.map_cons, alistLookup_cons]
    by_cases hp : p.1 = k
    · rw [if_pos hp]; simp
    · have h' : rest.any (fun q => q.1 = k) = true := by simpa [hp] using h
      rw [if_neg hp, if_neg hp]
      exact ih h'

theorem find?_map_replace_ne {α : Type} (d : List (String × α))
    (k k' : String) (v : α) (h : k' ≠ k) :
    alistLookup (d.map (fun p => if p.1 = k then (k, v) else p)) k'
      = alistLookup d k' := by
  induction d with
  | nil => rfl
  | cons p rest ih =>
    rw [List.map_cons, alistLookup_cons, alistLookup_cons]
    by_cases hp : p.1 = k
    · rw [if_pos hp]
      have h1 : ¬((k, v).1 = k') := fun hh => h hh.symm
      have h2 : ¬(p.1 = k') := by rw [hp]; exact fun hh => h hh.symm
      rw [if_neg h1, if_neg h2]
      exact ih
    · rw [if_neg hp]
      by_cases hp' : p.1 = k'
      · rw [if_pos hp', if_pos hp']
      · rw [if_neg hp', if_neg hp']
        exact ih

theorem alistLookup_append_single_self {α : Type} (d : List (String × α))
    (k : String) (v : α) (h : d.any (fun p => p.1 = k) = false) :
    alistLookup (d ++ [(k, v)]) k = some v := by
  induction d with
  | nil => simp [alistLookup]
  | cons p rest ih =>
    simp only [List.any_cons, Bool.or_eq_false_iff] at h
    have hp : ¬(p.1 = k) := by simpa using h.1
    rw [List.cons_append, alistLookup_cons, if_neg hp]
    exact ih h.2

theorem alistLookup_append_single_ne {α : Type} (d : List (String × α))
    (k k' : String) (v : α) (h : k' ≠ k) :
    alistLookup (d ++ [(k, v)]) k' = alistLookup d k' := by
  induction d with
  | nil =>
    have hk : ¬((k, v).1 = k') := fun hh => h hh.symm
    rw [List.nil_append, alistLookup_cons, if_neg hk]
  | cons p rest ih =>
    rw [List.cons_append, alistLookup_cons, alistLookup_cons]
    by_cases hp : p.1 = k'
    · rw [if_pos hp, if_pos hp]
    · rw [if_neg hp, if_neg hp]
      exact ih

theorem alistLookup_alistSet_self {α : Type} (d : List (String × α))
    (k : String) (v : α) : alistLookup (alistSet d k v) k = some v := by
  unfold alistSet
  by_cases h : d.any (fun p => p.1 = k)
  · rw [if_pos h]; exact find?_map_replace_self d k v h
  · rw [if_neg h]
    exact alistLookup_append_single_self d k v (eq_false_of_ne_true h)

theorem alistLookup_alistSet_ne {α : Type} (d : List (String × α))
    (k k' : String) (v : α) (h : k' ≠ k) :
    alistLookup (alistSet d k v) k' = alistLookup d k' := by
  unfold alistSet
  by_cases hany : d.any (fun p => p.1 = k)
  · rw [if_pos hany]; exact find?_map_replace_ne d k k' v h
  · rw [if_neg hany]; exact alistLookup_append_single_ne d k k' v h

theorem processSymbol_fields (fetch : String → Option FetchResult)
    (now : String) (sp : List SymInfo) (st : DB × Nat × Nat) (sym : String) :
    (processSymbol fetch now sp st sym).1.batch_index = st.1.batch_index
    ∧ (processSymbol fetch now sp st sym).1.full_cycles_completed
        = st.1.full_cycles_completed
    ∧ (processSymbol fetch now sp st sym).1.collection_started
        = st.1.collection_started
    ∧ (processSymbol fetch now sp st sym).1.sp500_list = st.1.sp500_list := by
  unfold processSymbol
  cases fetch sym with
  | none => exact ⟨rfl, rfl, rfl, rfl⟩
  | some r => by_cases hr : r.quarters.isEmpty <;> simp [hr]

theorem processBatch_fields (fetch : String → Option FetchResult)
    (now : String) (sp : List SymInfo) (l : List String)
    (st : DB × Nat × Nat) :
    (processBatch fetch now sp st l).1.batch_index = st.1.batch_index
    ∧ (processBatch fetch now sp st l).1.full_cycles_completed
        = st.1.full_cycles_completed
    ∧ (processBatch fetch now sp st l).1.collection_started
        = st.1.collection_started
    ∧ (processBatch fetch now sp st l).1.sp500_list = st.1.sp500_list := by
  induction l generalizing st with
  | nil => exact ⟨rfl, rfl, rfl, rfl⟩
  | cons s rest ih =>
    have h1 := processSymbol_fields fetch now sp st s
    have h2 := ih (processSymbol fetch now sp st s)
    exact ⟨h2.1.trans h1.1, h2.2.1.trans h1.2.1,
      h2.2.2.1.trans h1.2.2.1, h2.2.2.2.trans h1.2.2.2⟩

theorem batchSlice_eq_drop_take (l : List String) (i : Nat) :
    batchSlice l i = (l.drop (i * 50)).take 50 := by
  unfold batchSlice BATCH_SIZE
  rw [List.drop_take]
  rcases le_or_lt (i * 50 + 50) l.length with h | h
  · rw [min_eq_left h]
    congr 1
    omega
  · rw [min_eq_right (by omega)]
    rw [List.take_of_length_le (by rw [List.length_drop])]
    rw [List.take_of_length_le (by rw [List.length_drop]; omega)]

theorem flatten_chunks50 :
    ∀ (n : Nat) (l : List String), l.length = n →
      ((List.range ((l.length + 49) / 50)).map
        (fun i => (l.drop (i * 50)).take 50)).flatten = l := by
  intro n
  induction n using Nat.strong_induction_on with
  | _ n ih =>
    intro l hl
    by_cases h0 : l.length = 0
    · have hnil : l = [] := List.length_eq_zero.1 h0
      subst hnil
      rfl
    · have hT : (l.length + 49) / 50 = ((l.drop 50).length + 49) / 50 + 1 := by
        rw [List.length_drop]; omega
      rw [hT, List.range_succ_eq_map, List.map_cons, List.flatten_cons,
        List.map_map]
      have hfun : ((fun i => (l.drop (i * 50)).take 50) ∘ Nat.succ)
          = fun i => ((l.drop 50).drop (i * 50)).take 50 := by
        funext i
        show (l.drop ((i + 1) * 50)).take 50 = ((l.drop 50).drop (i * 50)).take 50
        rw [List.drop_drop]
        congr 2
        omega
      rw [hfun]
      have hrec := ih (l.drop 50).length
        (by rw [List.length_drop]; omega) (l.drop 50) rfl
      rw [hrec]
      simp [List.take_append_drop]

theorem mod_shift_surj (T C j : Nat) (hT : 0 < T) (hj : j < T) :
    ∃ i, i < T ∧ (C + i) % T = j := by
  have ha : C % T < T := Nat.mod_lt _ hT
  refine ⟨(j + T - C % T) % T, Nat.mod_lt _ hT, ?_⟩
  have h1 : C ≡ C % T [MOD T] := (Nat.mod_modEq C T).symm
  have h2 : (j + T - C % T) % T ≡ j + T - C % T [MOD T] := Nat.mod_modEq _ T
  have h3 := Nat.ModEq.add h1 h2
  have h4 : C % T + (j + T - C % T) = j + T := by omega
  rw [h4] at h3
  have h5 : (C + (j + T - C % T) % T) % T = (j + T) % T := h3
  rw [Nat.add_mod_right, Nat.mod_eq_of_lt hj] at h5
  exact h5

theorem mod_shift_inj (T C i₁ i₂ : Nat) (h1 : i₁ < T) (h2 : i₂ < T)
    (h : (C + i₁) % T = (C + i₂) % T) : i₁ = i₂ := by
  have hm : Nat.ModEq T (C + i₁) (C + i₂) := h
  have hcan : i₁ % T = i₂ % T := Nat.ModEq.add_left_cancel' C hm
  rw [Nat.mod_eq_of_lt h1, Nat.mod_eq_of_lt h2] at hcan
  exact hcan

/-- The non-fatal branch of `main()`, named so theorems can unfold one run. -/
def runBody (fetch : String → Option FetchResult) (now : String)
    (sp : List SymInfo) (db0 : DB) : RunOutcome :=
  let db := { db0 with sp500_list := sp }
  let symbols := sp.map (fun s => s.symbol)
  let total_batches := (symbols.length + BATCH_SIZE - 1) / BATCH_SIZE
  let batch_index := db.batch_index % total_batches
  let batch_symbols := batchSlice symbols batch_index
  let st := processBatch fetch now sp (db, 0, 0) batch_symbols
  let db1 := { st.1 with
    last_updated := now
    batch_index := (batch_index + 1) % total_batches
    total_batches := total_batches }
  let db2 := if db1.collection_started = "" then
      { db1 with collection_started := now } else db1
  let db3 := if batch_index + 1 = total_batches then
      { db2 with full_cycles_completed := db2.full_cycles_completed + 1 }
    else db2
  ⟨none, some db3, batch_symbols, st.2.1, st.2.2⟩

theorem mainModel_ok (fetch : String → Option FetchResult) (now : String)
    (sp : List SymInfo) (db : DB) (h : sp.isEmpty = false) :
    mainModel fetch now (some sp) db = runBody fetch now sp db := by
  simp only [mainModel, runBody, h]
  rfl

/-- The record a run stores for symbol `s`, when its fetch succeeds with a
nonempty quarter list. -/
def successRecord (fetch : String → Option FetchResult) (now : String)
    (sp : List SymInfo) (s : String) : Option SymbolRecord :=
  match fetch s with
  | some r => if r.quarters.isEmpty then none else some (mkRecord sp s r now)
  | none => none

theorem processSymbol_lookup_self (fetch : String → Option FetchResult)
    (now : String) (sp : List SymInfo) (st : DB × Nat × Nat) (s : String)
    (rec : SymbolRecord) (hsr : successRecord fetch now sp s = some rec) :
    alistLookup (processSymbol fetch now sp st s).1.data s = some rec := by
  unfold successRecord at hsr
  unfold processSymbol
  cases hf : fetch s with
  | none => rw [hf] at hsr; exact absurd hsr (by simp)
  | some r =>
    rw [hf] at hsr
    dsimp only at hsr ⊢
    by_cases hq : r.quarters.isEmpty
    · rw [if_pos hq] at hsr; exact absurd hsr (by simp)
    · rw [if_neg hq] at hsr
      rw [if_neg hq]
      dsimp only
      rw [alistLookup_alistSet_self]
      exact hsr

theorem processSymbol_lookup_self_fail (fetch : String → Option FetchResult)
    (now : String) (sp : List SymInfo) (st : DB × Nat × Nat) (s : String)
    (hsr : successRecord fetch now sp s = none) :
    (processSymbol fetch now sp st s).1.data = st.1.data := by
  unfold successRecord at hsr
  unfold processSymbol
  cases hf : fetch s with
  | none => rfl
  | some r =>
    rw [hf] at hsr
    dsimp only at hsr ⊢
    by_cases hq : r.quarters.isEmpty
    · rw [if_pos hq]
    · rw [if_neg hq] at hsr; exact absurd hsr (by simp)

theorem processSymbol_lookup_ne (fetch : String → Option FetchResult)
    (now : String) (sp : List SymInfo) (st : DB × Nat × Nat) (sym s : String)
    (hs : s ≠ sym) :
    alistLookup (processSymbol fetch now sp st sym).1.data s
      = alistLookup st.1.data s := by
  unfold processSymbol
  cases hf : fetch sym with
  | none => rfl
  | some r =>
    dsimp only
    by_cases hq : r.quarters.isEmpty
    · rw [if_pos hq]
    · rw [if_neg hq]
      dsimp only
      exact alistLookup_alistSet_ne st.1.data sym s _ hs

theorem processBatch_data_lookup (fetch : String → Option FetchResult)
    (now : String) (sp : List SymInfo) (l : List String)
    (st : DB × Nat × Nat) (s : String) :
    alistLookup (processBatch fetch now sp st l).1.data s
      = match successRecord fetch now sp s with
        | some rec => if s ∈ l then some rec else alistLookup st.1.data s
        | none => alistLookup st.1.data s := by
  induction l generalizing st with
  | nil =>
    cases successRecord fetch now sp s with
    | some rec => simp [processBatch]
    | none => rfl
  | cons sym rest ih =>
    rw [show processBatch fetch now sp st (sym :: rest)
        = processBatch fetch now sp (processSymbol fetch now sp st sym) rest
      from rfl]
    rw [ih]
    by_cases hs : s = sym
    · subst hs
      cases hsr : successRecord fetch now sp s with
      | some rec =>
        have hps := processSymbol_lookup_self fetch now sp st s rec hsr
        by_cases hrest : s ∈ rest
        · simp [hrest]
        · simp [hrest, hps, List.mem_cons]
      | none =>
        rw [processSymbol_lookup_self_fail fetch now sp st s hsr]
    · have hpd := processSymbol_lookup_ne fetch now sp st sym s hs
      cases hsr : successRecord fetch now sp s with
      | some rec =>
        by_cases hrest : s ∈ rest <;> simp [hrest, hs, hpd, List.mem_cons]
      | none => rw [hpd]

theorem runBody_written (fetch : String → Option FetchResult) (now : String)
    (sp : List SymInfo) (db : DB) :
    ∃ db', (runBody fetch now sp db).written = some db'
      ∧ db'.batch_index
          = (db.batch_index
              % (((sp.map (fun s => s.symbol)).length + BATCH_SIZE - 1)
                  / BATCH_SIZE) + 1)
            % (((sp.map (fun s => s.symbol)).length + BATCH_SIZE - 1)
                / BATCH_SIZE)
      ∧ db'.data
          = (processBatch fetch now sp ({db with sp500_list := sp}, 0, 0)
              (batchSlice (sp.map (fun s => s.symbol))
                (db.batch_index
                  % (((sp.map (fun s => s.symbol)).length + BATCH_SIZE - 1)
                      / BATCH_SIZE)))).1.data := by
  unfold runBody
  dsimp only
  refine ⟨_, rfl, ?_, ?_⟩
  · split <;> split <;> rfl
  · split <;> split <;> rfl

theorem sharesChain_eq (a b c : Int) :
    (if (if a = 0 then b else a) = 0 then c else (if a = 0 then b else a))
      = (if a = 0 then (if b = 0 then c else b) else a) := by
  by_cases ha : a = 0 <;> simp [ha]

end Buyback

/-- C1: for a nonempty universe and batch size 50, total_batches is the
ceiling of N/50 (conjuncts 1, 3, 4), the effective index C mod T lies in
[0, T) (conjunct 2), the slices for indices 0..T-1 concatenate to exactly
the universe (conjunct 5, so they cover it exactly once with no overlap),
and across T consecutive invocations the effective indices (C+i) mod T hit
every batch index exactly once (conjuncts 6 and 7). -/
theorem C1_batch_selection (symbols : List String) (C T : Nat)
    (h : symbols ≠ [])
    (hT : T = (symbols.length + Buyback.BATCH_SIZE - 1) / Buyback.BATCH_SIZE) :
    0 < T ∧ C % T < T
    ∧ symbols.length ≤ T * Buyback.BATCH_SIZE
    ∧ (T - 1) * Buyback.BATCH_SIZE < symbols.length
    ∧ ((List.range T).map (fun i => Buyback.batchSlice symbols i)).flatten
        = symbols
    ∧ (∀ j, j < T → ∃ i, i < T ∧ (C + i) % T = j)
    ∧ (∀ i₁ i₂, i₁ < T → i₂ < T → (C + i₁) % T = (C + i₂) % T → i₁ = i₂) := by
  subst hT
  have hlen : 0 < symbols.length := List.length_pos.2 h
  simp only [Buyback.BATCH_SIZE]
  have hT0 : 0 < (symbols.length + 50 - 1) / 50 := by omega
  refine ⟨hT0, Nat.mod_lt _ hT0, by omega, by omega, ?_, ?_, ?_⟩
  · have h49 : symbols.length + 50 - 1 = symbols.length + 49 := by omega
    rw [h49, funext (Buyback.batchSlice_eq_drop_take symbols)]
    exact Buyback.flatten_chunks50 symbols.length symbols rfl
  · exact fun j hj => Buyback.mod_shift_surj _ C j hT0 hj
  · exact fun i₁ i₂ h1 h2 => Buyback.mod_shift_inj _ C i₁ i₂ h1 h2

/-- Witness for C1 at the one-symbol universe and cursor 0. -/
theorem C1_batch_selection_witness :
    (["A"] : List String) ≠ []
    ∧ 1 = ((["A"] : List String).length + Buyback.BATCH_SIZE - 1)
            / Buyback.BATCH_SIZE
    ∧ (0 < 1 ∧ 0 % 1 < 1
       ∧ (["A"] : List String).length ≤ 1 * Buyback.BATCH_SIZE
       ∧ (1 - 1) * Buyback.BATCH_SIZE < (["A"] : List String).length
       ∧ ((List.range 1).map (fun i => Buyback.batchSlice ["A"] i)).flatten
           = ["A"]
       ∧ (∀ j, j < 1 → ∃ i, i < 1 ∧ (0 + i) % 1 = j)
       ∧ (∀ i₁ i₂, i₁ < 1 → i₂ < 1 → (0 + i₁) % 1 = (0 + i₂) % 1 → i₁ = i₂)) :=
  ⟨by decide, by decide, C1_batch_selection ["A"] 0 1 (by decide) (by decide)⟩

/-- C2: after a run, the persisted batch_index is
(effective_index + 1) mod total_batches, hence in [0, total_batches);
full_cycles_completed grows by exactly 1 when effective_index + 1 equals
total_batches and is unchanged otherwise, and in the incrementing case
batch_index resets to 0. -/
theorem C2_cursor_advance (fetch : String → Option Buyback.FetchResult)
    (now : String) (sp : List Buyback.SymInfo) (db : Buyback.DB) (T : Nat)
    (h : sp ≠ [])
    (hT : T = ((sp.map (fun s => s.symbol)).length + Buyback.BATCH_SIZE - 1)
            / Buyback.BATCH_SIZE) :
    ∃ db', (Buyback.mainModel fetch now (some sp) db).written = some db'
      ∧ db'.batch_index = (db.batch_index % T + 1) % T
      ∧ db'.batch_index < T
      ∧ db'.full_cycles_completed
          = db.full_cycles_completed
            + (if db.batch_index % T + 1 = T then 1 else 0)
      ∧ (db.batch_index % T + 1 = T → db'.batch_index = 0) := by
  have hne : sp.isEmpty = false := by
    cases sp with
    | nil => exact absurd rfl h
    | cons a l => rfl
  have hT0 : 0 < T := by
    rw [hT, List.length_map]
    have hp : 0 < sp.length := List.length_pos.2 h
    simp only [Buyback.BATCH_SIZE]
    omega
  rw [Buyback.mainModel_ok fetch now sp db hne]
  unfold Buyback.runBody
  dsimp only
  rw [← hT]
  have hfields := Buyback.processBatch_fields fetch now sp
    (Buyback.batchSlice (sp.map (fun s => s.symbol)) (db.batch_index % T))
    ({db with sp500_list := sp}, (0 : Nat), (0 : Nat))
  refine ⟨_, rfl, ?_, ?_, ?_, ?_⟩
  · split <;> split <;> rfl
  · have hlt : (db.batch_index % T + 1) % T < T := Nat.mod_lt _ hT0
    split <;> split <;> exact hlt
  · have hful := hfields.2.1
    dsimp only at hful
    split <;> rename_i hcyc <;> split <;> dsimp only <;> rw [hful] <;>
      simp [hcyc]
  · intro hcyc
    split <;> rename_i hc2
    · split <;> simp [hcyc, Nat.mod_self]
    · exact absurd hcyc hc2

/-- Witness for C2: a one-symbol universe with a failing fetch, starting
from the initial state; T = 1, the batch is the last one, so the cycle
counter increments and batch_index resets to 0. -/
theorem C2_cursor_advance_witness :
    ([⟨"A", none, none⟩] : List Buyback.SymInfo) ≠ []
    ∧ (1 : Nat) = ((([⟨"A", none, none⟩] : List Buyback.SymInfo).map
            (fun s => s.symbol)).length + Buyback.BATCH_SIZE - 1)
            / Buyback.BATCH_SIZE
    ∧ (∃ db', (Buyback.mainModel (fun _ => none) "t"
            (some [⟨"A", none, none⟩]) Buyback.initialDB).written = some db'
        ∧ db'.batch_index = (Buyback.initialDB.batch_index % 1 + 1) % 1
        ∧ db'.batch_index < 1
        ∧ db'.full_cycles_completed
            = Buyback.initialDB.full_cycles_completed
              + (if Buyback.initialDB.batch_index % 1 + 1 = 1 then 1 else 0)
        ∧ (Buyback.initialDB.batch_index % 1 + 1 = 1 → db'.batch_index = 0)) :=
  ⟨by decide, by decide,
    C2_cursor_advance (fun _ => none) "t" [⟨"A", none, none⟩]
      Buyback.initialDB 1 (by decide) (by decide)⟩

/-- C4: the buyback-activity flag holds exactly when some quarter has a
strictly negative buyback_amount, and the aggregate total is the sum of the
absolute values of the strictly negative amounts only; amounts
[-500, -300, 100, 0] give flag true and total 800. -/
theorem C4_buyback_aggregation (qs : List Buyback.Quarter) :
    (Buyback.hasBuybackActivity qs = true ↔ ∃ q ∈ qs, q.buyback_amount < 0)
    ∧ Buyback.buybackTotal qs
        = ((qs.filter (fun q => q.buyback_amount < 0)).map
            (fun q => |q.buyback_amount|)).sum
    ∧ Buyback.hasBuybackActivity
        [⟨"", "", "", -500, 0, 0, 0, 0⟩, ⟨"", "", "", -300, 0, 0, 0, 0⟩,
         ⟨"", "", "", 100, 0, 0, 0, 0⟩, ⟨"", "", "", 0, 0, 0, 0, 0⟩] = true
    ∧ Buyback.buybackTotal
        [⟨"", "", "", -500, 0, 0, 0, 0⟩, ⟨"", "", "", -300, 0, 0, 0, 0⟩,
         ⟨"", "", "", 100, 0, 0, 0, 0⟩, ⟨"", "", "", 0, 0, 0, 0, 0⟩] = 800 := by
  refine ⟨?_, ?_, by decide, by decide⟩
  · simp [Buyback.hasBuybackActivity, List.any_eq_true]
  · induction qs with
    | nil => rfl
    | cons q rest ih =>
      simp only [Buyback.buybackTotal, List.map_cons, List.sum_cons,
        List.filter_cons] at ih ⊢
      by_cases hq : q.buyback_amount < 0
      · rw [min_eq_left (le_of_lt hq)]
        simp [hq, ih]
      · rw [min_eq_right (not_lt.1 hq)]
        simp [hq, ih]

/-- C5: for every raw per-period row, buyback_amount is the first present,
non-null, non-NaN value among the candidate fields
'Repurchase Of Capital Stock', 'Common Stock Repurchased',
'RepurchaseOfCapitalStock' (in that order), and 0 when none yields such a
value; in particular a row carrying only "Common Stock Repurchased": -1200
resolves to -1200. -/
theorem C5_buyback_field_fallback (cf : Buyback.FinTable)
    (sd pr : List (String × Int)) (cs : Int) (j : Nat)
    (col : Buyback.DateCol) :
    (Buyback.mkQuarter cf sd pr cs j col).buyback_amount
      = (Buyback.buybackKeys.filterMap
          (fun k => Buyback.cellVal cf k j)).headD 0
    ∧ (Buyback.mkQuarter
         ⟨[⟨2023, 3, 31⟩], [("Common Stock Repurchased", [some (-1200)])]⟩
         [] [] 0 0 ⟨2023, 3, 31⟩).buyback_amount = -1200 := by
  refine ⟨?_, by decide⟩
  show Buyback.resolveField cf j Buyback.buybackKeys = _
  exact Buyback.resolveField_eq_filterMap cf j Buyback.buybackKeys

/-- C6: shares_outstanding is resolved with priority: the balance-sheet
shares series through the nearest-neighbor aligner at the quarter's month
key; when that yields 0, the first present, non-null, non-NaN, strictly
positive value among 'Diluted Average Shares' then 'Basic Average Shares';
when still 0, the account-level share count (itself defaulting to 0). -/
theorem C6_shares_priority (cf : Buyback.FinTable)
    (sd pr : List (String × Int)) (cs : Int) (j : Nat)
    (col : Buyback.DateCol) :
    (Buyback.mkQuarter cf sd pr cs j col).shares_outstanding
      = (if Buyback.find_nearby sd ((Buyback.dateStrOf col).take 7) = 0 then
           (if (Buyback.avgSharesKeys.filterMap (fun k =>
                  (Buyback.cellVal cf k j).bind
                    (fun v => if 0 < v then some v else none))).headD 0 = 0
            then cs
            else (Buyback.avgSharesKeys.filterMap (fun k =>
                  (Buyback.cellVal cf k j).bind
                    (fun v => if 0 < v then some v else none))).headD 0)
         else Buyback.find_nearby sd ((Buyback.dateStrOf col).take 7)) := by
  have h0 : (Buyback.mkQuarter cf sd pr cs j col).shares_outstanding
      = (if (if Buyback.find_nearby sd ((Buyback.dateStrOf col).take 7) = 0
              then Buyback.resolveSharesAvg cf j Buyback.avgSharesKeys
              else Buyback.find_nearby sd ((Buyback.dateStrOf col).take 7)) = 0
          then cs
          else (if Buyback.find_nearby sd ((Buyback.dateStrOf col).take 7) = 0
              then Buyback.resolveSharesAvg cf j Buyback.avgSharesKeys
              else Buyback.find_nearby sd ((Buyback.dateStrOf col).take 7))) := rfl
  rw [h0, Buyback.sharesChain_eq, Buyback.resolveSharesAvg_eq_filterMap]

/-- C10 (implicit): every quarter record the fetch produces has
shares_diluted exactly equal to shares_outstanding; the two fields are
never resolved independently. -/
theorem C10_shares_diluted_mirror (p : Buyback.Provider)
    (r : Buyback.FetchResult) (q : Buyback.Quarter)
    (h : Buyback.fetch_buyback_data p = some r) (hq : q ∈ r.quarters) :
    q.shares_diluted = q.shares_outstanding := by
  obtain ⟨cf, sd, pr, cs, hr⟩ := Buyback.fetch_quarters_eq p r h
  rw [hr] at hq
  unfold Buyback.buildQuarters at hq
  rw [List.mem_map] at hq
  obtain ⟨a, _, rfl⟩ := hq
  exact Buyback.mkQuarter_diluted_eq_outstanding cf sd pr cs a.1 a.2

def wProvider : Buyback.Provider :=
  { cashflow := .ok (some ⟨[⟨2023, 3, 31⟩], [("Free Cash Flow", [some 5])]⟩)
    fastInfo := .ok ⟨some 10, some 20, some 30⟩
    balance_sheet := .ok none
    history := .ok none }

def wResult : Buyback.FetchResult :=
  (Buyback.fetch_buyback_data wProvider).getD ⟨[], 0, 0⟩

def wQuarter : Buyback.Quarter :=
  wResult.quarters.headD ⟨"", "", "", 0, 0, 0, 0, 0⟩

/-- Witness for C10 at a concrete one-column provider. -/
theorem C10_shares_diluted_mirror_witness :
    Buyback.fetch_buyback_data wProvider = some wResult
    ∧ wQuarter ∈ wResult.quarters
    ∧ wQuarter.shares_diluted = wQuarter.shares_outstanding :=
  ⟨by decide, by decide,
    C10_shares_diluted_mirror wProvider wResult wQuarter (by decide) (by decide)⟩

def wFetchFail : String → Option Buyback.FetchResult := fun _ => none

def wProviderErr : Buyback.Provider :=
  { cashflow := Buyback.PCall.err "boom"
    fastInfo := Buyback.PCall.ok ⟨none, none, none⟩
    balance_sheet := Buyback.PCall.ok none
    history := Buyback.PCall.ok none }

/-- A provider whose cash-flow and fast-info calls succeed but whose
balance-sheet and history sub-queries raise. -/
def wProviderBS : Buyback.Provider :=
  { cashflow := Buyback.PCall.ok
      (some ⟨[⟨2023, 3, 31⟩], [("Free Cash Flow", [some 5])]⟩)
    fastInfo := Buyback.PCall.ok ⟨some 10, some 20, some 30⟩
    balance_sheet := Buyback.PCall.err "boom"
    history := Buyback.PCall.err "boom" }

/-- Counterexample to C7 as frozen: a balance-sheet provider error is an
internal provider error, yet the fetch does not convert it into a
"no data" result — it still returns data (which the orchestrator counts as
a success), because the error is absorbed by the inner handler at source
lines 48-61. -/
theorem C7_per_symbol_failure_counterexample :
    wProviderBS.balance_sheet = Buyback.PCall.err "boom"
    ∧ Buyback.fetch_buyback_data wProviderBS ≠ none := by
  exact ⟨rfl, by decide⟩

/-- C7 (amended): a failed fetch (no result, or an empty quarter list)
increments only the failure counter, leaves the whole state (in particular
the stored mapping entry for the symbol) unchanged, and the loop continues
with the remaining symbols; the fetch itself is total, converts a raising
cash-flow or fast-info provider call into a "no data" result, and absorbs a
raising balance-sheet or history sub-query through its inner handler,
still returning a result in which the corresponding auxiliary data is
empty. -/
theorem C7_per_symbol_failure_amended
    (fetch : String → Option Buyback.FetchResult)
    (now : String) (sp : List Buyback.SymInfo) (db : Buyback.DB)
    (succ fail : Nat) (sym : String) (rest : List String)
    (p q : Buyback.Provider) (cf : Buyback.FinTable) (fi : Buyback.FastInfo)
    (eb eh : String)
    (hfail : fetch sym = none ∨ ∃ r, fetch sym = some r ∧ r.quarters = [])
    (hp : (∃ e, p.cashflow = Buyback.PCall.err e)
        ∨ (∃ e, p.fastInfo = Buyback.PCall.err e))
    (hq1 : q.cashflow = Buyback.PCall.ok (some cf))
    (hq2 : cf.isEmpty = false)
    (hq3 : q.fastInfo = Buyback.PCall.ok fi)
    (hq4 : q.balance_sheet = Buyback.PCall.err eb)
    (hq5 : q.history = Buyback.PCall.err eh) :
    Buyback.processSymbol fetch now sp (db, succ, fail) sym
        = (db, succ, fail + 1)
    ∧ Buyback.processBatch fetch now sp (db, succ, fail) (sym :: rest)
        = Buyback.processBatch fetch now sp
            (Buyback.processSymbol fetch now sp (db, succ, fail) sym) rest
    ∧ Buyback.fetch_buyback_data p = none
    ∧ Buyback.fetch_buyback_data q
        = some ⟨Buyback.buildQuarters cf [] [] (fi.shares.getD 0),
                fi.market_cap.getD 0, fi.last_price.getD 0⟩ := by
  refine ⟨?_, rfl, ?_, ?_⟩
  · unfold Buyback.processSymbol
    rcases hfail with hnone | ⟨r, hr, hrq⟩
    · rw [hnone]
    · rw [hr]
      dsimp only
      simp [hrq]
  · rcases hp with ⟨e, he⟩ | ⟨e, he⟩
    · unfold Buyback.fetch_buyback_data
      rw [he]
    · unfold Buyback.fetch_buyback_data
      rw [he]
      cases p.cashflow with
      | err f => rfl
      | ok o =>
        cases o with
        | none => rfl
        | some cf2 =>
          dsimp only
          by_cases hc : cf2.isEmpty <;> simp [hc]
  · unfold Buyback.fetch_buyback_data
    rw [hq1, hq3, hq4, hq5]
    dsimp only
    rw [hq2]
    rfl

/-- Witness for the amended C7: a fetch that returns no result, a provider
whose cash-flow call raises, and a provider whose balance-sheet and history
calls raise while the statement calls succeed. -/
theorem C7_per_symbol_failure_amended_witness :
    (wFetchFail "A" = none
      ∨ ∃ r, wFetchFail "A" = some r ∧ r.quarters = [])
    ∧ ((∃ e, wProviderErr.cashflow = Buyback.PCall.err e)
        ∨ (∃ e, wProviderErr.fastInfo = Buyback.PCall.err e))
    ∧ wProviderBS.cashflow = Buyback.PCall.ok
        (some ⟨[⟨2023, 3, 31⟩], [("Free Cash Flow", [some 5])]⟩)
    ∧ (⟨[⟨2023, 3, 31⟩], [("Free Cash Flow", [some 5])]⟩
        : Buyback.FinTable).isEmpty = false
    ∧ wProviderBS.fastInfo = Buyback.PCall.ok ⟨some 10, some 20, some 30⟩
    ∧ wProviderBS.balance_sheet = Buyback.PCall.err "boom"
    ∧ wProviderBS.history = Buyback.PCall.err "boom"
    ∧ (Buyback.processSymbol wFetchFail "t" [] (Buyback.initialDB, 0, 0) "A"
          = (Buyback.initialDB, 0, 0 + 1)
      ∧ Buyback.processBatch wFetchFail "t" [] (Buyback.initialDB, 0, 0)
            ("A" :: [])
          = Buyback.processBatch wFetchFail "t" []
              (Buyback.processSymbol wFetchFail "t" []
                (Buyback.initialDB, 0, 0) "A") []
      ∧ Buyback.fetch_buyback_data wProviderErr = none
      ∧ Buyback.fetch_buyback_data wProviderBS
          = some ⟨Buyback.buildQuarters
                    ⟨[⟨2023, 3, 31⟩], [("Free Cash Flow", [some 5])]⟩
                    [] [] ((some (30 : Int)).getD 0),
                  (some (10 : Int)).getD 0, (some (20 : Int)).getD 0⟩) :=
  ⟨Or.inl rfl, Or.inl ⟨"boom", rfl⟩, rfl, by decide, rfl, rfl, rfl,
    C7_per_symbol_failure_amended wFetchFail "t" [] Buyback.initialDB 0 0
      "A" [] wProviderErr wProviderBS
      ⟨[⟨2023, 3, 31⟩], [("Free Cash Flow", [some 5])]⟩
      ⟨some 10, some 20, some 30⟩ "boom" "boom"
      (Or.inl rfl) (Or.inl ⟨"boom", rfl⟩) rfl (by decide) rfl rfl rfl⟩

/-- C8: a missing universe file or an empty universe list makes the run
terminate with exit status 1 before fetching any symbol and without writing
the state file; in particular the total_batches division is never reached
with an empty universe. -/
theorem C8_fatal_precondition (fetch : String → Option Buyback.FetchResult)
    (now : String) (db : Buyback.DB) (u : Option (List Buyback.SymInfo))
    (h : u = none ∨ u = some []) :
    Buyback.mainModel fetch now u db = ⟨some 1, none, [], 0, 0⟩ := by
  rcases h with rfl | rfl <;> rfl

/-- Witness for C8 at the missing-universe-file input. -/
theorem C8_fatal_precondition_witness :
    ((none : Option (List Buyback.SymInfo)) = none
      ∨ (none : Option (List Buyback.SymInfo)) = some [])
    ∧ Buyback.mainModel wFetchFail "t" none Buyback.initialDB
        = ⟨some 1, none, [], 0, 0⟩ :=
  ⟨Or.inl rfl,
    C8_fatal_precondition wFetchFail "t" Buyback.initialDB none (Or.inl rfl)⟩

/-- C9: with an upstream client returning identical data on both runs (and
the same timestamp), two consecutive orchestrator runs advance batch_index
by exactly 1 mod total_batches each, and every symbol successfully fetched
in the first run carries an identical Symbol record after both runs: the
record is a pure function of the fetched data (full replacement), and the
second run either leaves it untouched or rewrites the same value. -/
theorem C9_idempotence (fetch : String → Option Buyback.FetchResult)
    (now : String) (sp : List Buyback.SymInfo) (db db1 db2 : Buyback.DB)
    (s : String) (r : Buyback.FetchResult) (T : Nat)
    (hsp : sp ≠ [])
    (hT : T = ((sp.map (fun x => x.symbol)).length + Buyback.BATCH_SIZE - 1)
            / Buyback.BATCH_SIZE)
    (h1 : (Buyback.mainModel fetch now (some sp) db).written = some db1)
    (h2 : (Buyback.mainModel fetch now (some sp) db1).written = some db2)
    (hs : s ∈ (Buyback.mainModel fetch now (some sp) db).fetched)
    (hf : fetch s = some r) (hq : r.quarters ≠ []) :
    db1.batch_index = (db.batch_index % T + 1) % T
    ∧ db2.batch_index = (db1.batch_index % T + 1) % T
    ∧ Buyback.alistLookup db1.data s = some (Buyback.mkRecord sp s r now)
    ∧ Buyback.alistLookup db2.data s = Buyback.alistLookup db1.data s := by
  have hne : sp.isEmpty = false := by
    cases sp with
    | nil => exact absurd rfl hsp
    | cons a l => rfl
  have hsr : Buyback.successRecord fetch now sp s
      = some (Buyback.mkRecord sp s r now) := by
    unfold Buyback.successRecord
    rw [hf]
    dsimp only
    rw [if_neg (by simpa [List.isEmpty_iff] using hq)]
  rw [Buyback.mainModel_ok fetch now sp db hne] at h1 hs
  rw [Buyback.mainModel_ok fetch now sp db1 hne] at h2
  obtain ⟨d1, hw1, hbi1, hdata1⟩ := Buyback.runBody_written fetch now sp db
  rw [hw1, Option.some.injEq] at h1
  rw [h1] at hbi1 hdata1
  obtain ⟨d2, hw2, hbi2, hdata2⟩ := Buyback.runBody_written fetch now sp db1
  rw [hw2, Option.some.injEq] at h2
  rw [h2] at hbi2 hdata2
  rw [← hT] at hbi1 hbi2
  have hsbatch : s ∈ Buyback.batchSlice (sp.map (fun x => x.symbol))
      (db.batch_index
        % (((sp.map (fun x => x.symbol)).length + Buyback.BATCH_SIZE - 1)
            / Buyback.BATCH_SIZE)) := by
    unfold Buyback.runBody at hs
    exact hs
  have hc3 : Buyback.alistLookup db1.data s
      = some (Buyback.mkRecord sp s r now) := by
    rw [hdata1, Buyback.processBatch_data_lookup, hsr]
    dsimp only
    rw [if_pos hsbatch]
  refine ⟨hbi1, hbi2, hc3, ?_⟩
  rw [hdata2, Buyback.processBatch_data_lookup, hsr]
  dsimp only
  split
  · exact (hc3.symm)
  · rfl

def wInfoB : Buyback.SymInfo := ⟨"B", some "Beta", some "Tech"⟩

def wResB : Buyback.FetchResult :=
  ⟨[⟨"2023-03-31", "Q1", "2023", -5, 100, 100, 7, 3⟩], 1000, 12⟩

def wFetchB : String → Option Buyback.FetchResult :=
  fun s => if s = "B" then some wResB else none

def wDb1 : Buyback.DB :=
  ((Buyback.mainModel wFetchB "t" (some [wInfoB])
    Buyback.initialDB).written).getD Buyback.initialDB

def wDb2 : Buyback.DB :=
  ((Buyback.mainModel wFetchB "t" (some [wInfoB]) wDb1).written).getD
    Buyback.initialDB

/-- Witness for C9: a one-symbol universe whose fetch succeeds with one
quarter, run twice from the initial state. -/
theorem C9_idempotence_witness :
    ([wInfoB] : List Buyback.SymInfo) ≠ []
    ∧ (1 : Nat) = ((([wInfoB] : List Buyback.SymInfo).map
            (fun x => x.symbol)).length + Buyback.BATCH_SIZE - 1)
          / Buyback.BATCH_SIZE
    ∧ (Buyback.mainModel wFetchB "t" (some [wInfoB])
          Buyback.initialDB).written = some wDb1
    ∧ (Buyback.mainModel wFetchB "t" (some [wInfoB]) wDb1).written = some wDb2
    ∧ "B" ∈ (Buyback.mainModel wFetchB "t" (some [wInfoB])
          Buyback.initialDB).fetched
    ∧ wFetchB "B" = some wResB
    ∧ wResB.quarters ≠ []
    ∧ (wDb1.batch_index = (Buyback.initialDB.batch_index % 1 + 1) % 1
       ∧ wDb2.batch_index = (wDb1.batch_index % 1 + 1) % 1
       ∧ Buyback.alistLookup wDb1.data "B"
           = some (Buyback.mkRecord [wInfoB] "B" wResB "t")
       ∧ Buyback.alistLookup wDb2.data "B" = Buyback.alistLookup wDb1.data "B") :=
  ⟨by decide, by decide, by decide, by decide, by decide, by decide, by decide,
    C9_idempotence wFetchB "t" [wInfoB] Buyback.initialDB wDb1 wDb2 "B" wResB 1
      (by decide) (by decide) (by decide) (by decide) (by decide) (by decide)
      (by decide)⟩

/-- C3: the temporal aligner returns the exact-match value when the target
key is present, otherwise the value at the first present candidate among the
month offsets +1, -1, +2, -2, +3, -3 (in that precedence order, with month
arithmetic normalized to 1-12 and the year carried across boundaries, e.g.
"2023-12" offset +1 yields "2024-01" and "2023-01" offset -1 yields
"2022-12"), and 0 when none of the seven candidates is present. -/
theorem C3_temporal_aligner (d : List (String × Int)) (date_key : String)
    (y m : Int)
    (hy : Buyback.parseInt (date_key.take 4) = some y)
    (hm : Buyback.parseInt ((date_key.drop 5).take 2) = some m) :
    Buyback.find_nearby d date_key
      = Buyback.firstHit d
          (date_key :: ([1, -1, 2, -2, 3, -3].map (Buyback.offsetKey y m)))
    ∧ Buyback.offsetKey 2023 12 1 = "2024-01"
    ∧ Buyback.offsetKey 2023 1 (-1) = "2022-12" := by
  refine ⟨?_, by decide, by decide⟩
  unfold Buyback.find_nearby Buyback.firstHit
  cases h : Buyback.alistLookup d date_key with
  | some v => simp [h]
  | none => simp [h, hy, hm, Buyback.probeOffsets_eq_firstHit]

/-- Witness for C3 at the concrete key "2023-04" against a dict holding only
"2023-05": offset +1 precedence applies. -/
theorem C3_temporal_aligner_witness :
    Buyback.parseInt ("2023-04".take 4) = some 2023
    ∧ Buyback.parseInt (("2023-04".drop 5).take 2) = some 4
    ∧ (Buyback.find_nearby [("2023-05", 7)] "2023-04"
         = Buyback.firstHit [("2023-05", 7)]
             ("2023-04" :: ([1, -1, 2, -2, 3, -3].map (Buyback.offsetKey 2023 4)))
       ∧ Buyback.offsetKey 2023 12 1 = "2024-01"
       ∧ Buyback.offsetKey 2023 1 (-1) = "2022-12") :=
  ⟨by decide, by decide,
    C3_temporal_aligner [("2023-05", 7)] "2023-04" 2023 4 (by decide) (by decide)⟩
